import Mathlib

/-!
Verification of the BluetoothDetection repository's signal-processing core.

The repository contains several script variants of the same pipeline:
RSSI-to-distance conversion, per-device bounded RSSI history with
absence sentinels, and two grouping strategies (chained-threshold and
density-based).  This file gives a shallow embedding of those functions:

* `PossibleAlgorithm.*`   embeds `possible_algorithm.py`
* `Naman.*`               embeds `Naman/dbscanDetection.py`
* `General.*`             embeds `General.py` (class `PeopleDetector`)
* `BluetoothDetection.*`  embeds `bluetoothDetection.py`
* `FrequencyOfDevices.*`  embeds `frequencyOfDevices.py`
* `Grouping.*`            embeds the `group_devices_by_proximity` body
                          shared verbatim by `possible_algorithm.py`,
                          `Naman/dbscanDetection.py` and
                          `Tmay_bluetooth_scan.py`

Python floats are idealised as exact rationals (inputs) and reals
(distance values, which use `10 ** x`); Python dicts keyed by MAC
address are modelled as total functions `String → List ℚ` together
with the insertion-ordered key list (`tracked`).
-/

namespace Grouping

/-- `DISTANCE_TOLERANCE = 0.2` in `possible_algorithm.py`,
`Naman/dbscanDetection.py` and `Tmay_bluetooth_scan.py`. -/
def DISTANCE_TOLERANCE : ℚ := 1/5

/-- One iteration of the `for distance in distances` loop of
`group_devices_by_proximity`: the accumulator is the pair
`(groups, current_group)`; `current_group[-1]` is the last element. -/
def step (tol : ℚ) (acc : List (List ℚ) × List ℚ) (distance : ℚ) :
    List (List ℚ) × List ℚ :=
  match acc.2.getLast? with
  | none => (acc.1, acc.2 ++ [distance])
  | some last =>
      if |distance - last| ≤ tol then (acc.1, acc.2 ++ [distance])
      else (acc.1 ++ [acc.2], [distance])

/-- `group_devices_by_proximity(distances)`: sorts (Python's in-place
`distances.sort()`, modelled by `insertionSort`, a stable sort like
Timsort), folds `step` over the sorted list, then flushes the last
`current_group`.  Returns the list of groups, as in
`possible_algorithm.py`; the `Naman`/`Tmay` variants return
`len(groups)`. -/
def group_devices_by_proximity (tol : ℚ) (distances : List ℚ) : List (List ℚ) :=
  let sorted := distances.insertionSort (· ≤ ·)
  let p := sorted.foldl (step tol) ([], [])
  if p.2 = [] then p.1 else p.1 ++ [p.2]

/-- State-passing rendering of the same call: Python's `distances.sort()`
mutates the caller's list, and the rest of the body only reads it, so the
caller's list after the call is its sorted version.  The first component
is the return value, the second the caller's list after the call. -/
def group_devices_by_proximity_call (tol : ℚ) (distances : List ℚ) :
    List (List ℚ) × List ℚ :=
  (group_devices_by_proximity tol distances, distances.insertionSort (· ≤ ·))

/-- Modelled from the spec: the chained-threshold rule of spec §4.3 -
a candidate joins the current group exactly when its difference from the
immediately preceding absorbed element is at most the tolerance.
`chainFrom tol prev l` splits `l` into the maximal chain extending an
element `prev` and the unabsorbed remainder. -/
def chainFrom (tol : ℚ) (prev : ℚ) : List ℚ → List ℚ × List ℚ
  | [] => ([], [])
  | x :: xs =>
      if |x - prev| ≤ tol then
        ((x :: (chainFrom tol x xs).1), (chainFrom tol x xs).2)
      else ([], x :: xs)

theorem chainFrom_snd_length (tol : ℚ) :
    ∀ (l : List ℚ) (prev : ℚ), (chainFrom tol prev l).2.length ≤ l.length := by
  intro l
  induction l with
  | nil => intro prev; simp [chainFrom]
  | cons x xs ih =>
      intro prev
      by_cases h : |x - prev| ≤ tol
      · simpa [chainFrom, h] using Nat.le_succ_of_le (ih x)
      · simp [chainFrom, h]

/-- Modelled from the spec: the groups produced by the chained-threshold
rule of spec §4.3 on an (already sorted) list. -/
def chainGroups (tol : ℚ) : List ℚ → List (List ℚ)
  | [] => []
  | d :: rest =>
      (d :: (chainFrom tol d rest).1) :: chainGroups tol (chainFrom tol d rest).2
termination_by l => l.length
decreasing_by
  simp only [List.length_cons]
  exact Nat.lt_succ_of_le (chainFrom_snd_length _ _ _)

theorem chainGroups_nil (tol : ℚ) : chainGroups tol [] = [] := by
  rw [chainGroups.eq_def]

theorem chainGroups_cons (tol d : ℚ) (rest : List ℚ) :
    chainGroups tol (d :: rest) =
      (d :: (chainFrom tol d rest).1) :: chainGroups tol (chainFrom tol d rest).2 := by
  rw [chainGroups.eq_def]

theorem step_flush (tol : ℚ) :
    ∀ (l : List ℚ) (gs : List (List ℚ)) (cur : List ℚ) (p : ℚ),
      cur.getLast? = some p →
      (let q := l.foldl (step tol) (gs, cur)
       if q.2 = [] then q.1 else q.1 ++ [q.2]) =
        gs ++ (cur ++ (chainFrom tol p l).1) :: chainGroups tol (chainFrom tol p l).2 := by
  intro l
  induction l with
  | nil =>
      intro gs cur p hp
      have hcur : cur ≠ [] := by
        intro h; rw [h] at hp; simp at hp
      simp [chainFrom, chainGroups_nil, hcur]
  | cons x xs ih =>
      intro gs cur p hp
      by_cases h : |x - p| ≤ tol
      · have hstep : step tol (gs, cur) x = (gs, cur ++ [x]) := by
          simp [step, hp, h]
        have hlast : (cur ++ [x]).getLast? = some x := by
          simp
        have := ih gs (cur ++ [x]) x hlast
        simp only [List.foldl_cons, hstep]
        rw [this]
        simp [chainFrom, h, List.append_assoc]
      · have hstep : step tol (gs, cur) x = (gs ++ [cur], [x]) := by
          simp [step, hp, h]
        have hlast : ([x] : List ℚ).getLast? = some x := by simp
        have := ih (gs ++ [cur]) [x] x hlast
        simp only [List.foldl_cons, hstep]
        rw [this]
        have hcf : chainFrom tol p (x :: xs) = ([], x :: xs) := by
          simp [chainFrom, h]
        rw [hcf, chainGroups_cons]
        simp

/-- The fold of `group_devices_by_proximity` computes exactly the spec's
chained-threshold grouping of the sorted input. -/
theorem group_devices_by_proximity_eq_chainGroups (tol : ℚ) (distances : List ℚ) :
    group_devices_by_proximity tol distances =
      chainGroups tol (distances.insertionSort (· ≤ ·)) := by
  unfold group_devices_by_proximity
  cases hs : distances.insertionSort (· ≤ ·) with
  | nil => simp [chainGroups_nil]
  | cons d rest =>
      have hfirst : step tol ([], []) d = ([], [d]) := by
        simp [step]
      have hlast : ([d] : List ℚ).getLast? = some d := by simp
      have := step_flush tol rest [] [d] d hlast
      simp only [List.foldl_cons, hfirst]
      rw [this]
      rw [chainGroups_cons]
      simp

theorem insertionSort_eq_of_perm {l l' : List ℚ} (h : List.Perm l l') :
    l.insertionSort (· ≤ ·) = l'.insertionSort (· ≤ ·) :=
  List.eq_of_perm_of_sorted
    (((List.perm_insertionSort _ l).trans h).trans (List.perm_insertionSort _ l').symm)
    (List.sorted_insertionSort _ l) (List.sorted_insertionSort _ l')

end Grouping

namespace General

/-- The inner `while` of `PeopleDetector._group_by_distance`: starting a
group at `d`, skip every following element within
`distance_threshold + 0.2` of `d` (the group's FIRST element, not the
previous absorbed one).  `fuel` bounds the recursion; each outer step
consumes at least the group's first element, so `fuel = length` of the
initial list always suffices. -/
def groupLoop (distance_threshold : ℚ) : ℕ → List ℚ → ℕ
  | 0, _ => 0
  | _, [] => 0
  | fuel + 1, d :: rest =>
      1 + groupLoop distance_threshold fuel
        (rest.dropWhile (fun x => decide (x - d ≤ distance_threshold + 1/5)))

/-- `PeopleDetector._group_by_distance(distances)`: sort, then count
groups where a device joins the group when its distance from the group's
first element is at most `distance_threshold + 0.2` (the "buffer zone").
Assumes `0 ≤ distance_threshold + 0.2` (otherwise the Python inner
`while` never advances and the method loops forever). -/
def group_by_distance (distance_threshold : ℚ) (distances : List ℚ) : ℕ :=
  groupLoop distance_threshold distances.length (distances.insertionSort (· ≤ ·))

end General

namespace Naman

/-- `calculate_distance(rssi, rssi_at_1m=-50, path_loss_exponent=2)` of
`Naman/dbscanDetection.py` (identical in `Tmay_bluetooth_scan.py`):
`10 ** ((rssi_at_1m - rssi) / (10 * path_loss_exponent))`, no rounding.
The `try/except` never fires for numeric input, so the result is always
`some`. -/
noncomputable def calculate_distance (rssi rssi_at_1m path_loss_exponent : ℚ) : Option ℝ :=
  some ((10 : ℝ) ^ ((((rssi_at_1m - rssi) / (10 * path_loss_exponent) : ℚ) : ℝ)))

/-- `DISTANCE_LIMIT = 5` in `Naman/dbscanDetection.py`. -/
def DISTANCE_LIMIT : ℚ := 5

/-- The `rssi_history` dict: a total map from address to sample list
plus the insertion-ordered key list. -/
structure Store where
  hist : String → List ℚ
  tracked : List String

def emptyStore : Store := ⟨fun _ => [], []⟩

/-- `update_rssi_history(address, rssi)` of `Naman/dbscanDetection.py`:
creates the entry on first sighting, appends `rssi` - with NO length
bound - and returns the average of all retained samples. -/
def update_rssi_history (st : Store) (address : String) (rssi : ℚ) : Store × ℚ :=
  let l := st.hist address ++ [rssi]
  (⟨fun a => if a = address then l else st.hist a,
    if address ∈ st.tracked then st.tracked else st.tracked ++ [address]⟩,
   l.sum / l.length)

/-- The device loop of `count_devices` in `Naman/dbscanDetection.py`:
for every device (no minimum-RSSI filter), update the history, convert
the smoothed RSSI to a distance, and keep it when below
`DISTANCE_LIMIT`. -/
noncomputable def count_devices_loop (st : Store) (acc : List ℝ) :
    List (String × ℚ) → Store × List ℝ
  | [] => (st, acc)
  | (address, rssi) :: rest =>
      match calculate_distance (update_rssi_history st address rssi).2 (-50) 2 with
      | some distance =>
          if distance < (DISTANCE_LIMIT : ℝ) then
            count_devices_loop (update_rssi_history st address rssi).1
              (acc ++ [distance]) rest
          else count_devices_loop (update_rssi_history st address rssi).1 acc rest
      | none => count_devices_loop (update_rssi_history st address rssi).1 acc rest

/-- Applying a sequence of `update_rssi_history` calls. -/
def applyRecords (st : Store) (rs : List (String × ℚ)) : Store :=
  rs.foldl (fun s p => (update_rssi_history s p.1 p.2).1) st

/-- A point is a core point for sklearn's DBSCAN when at least
`min_samples` input points (the point itself included) lie within
`eps`. -/
def isCore (distances : List ℚ) (eps : ℚ) (min_samples : ℕ) (p : ℚ) : Bool :=
  min_samples ≤ (distances.filter (fun q => decide (|p - q| ≤ eps))).length

/-- Whether the component `c` contains a point within `eps` of `p`. -/
def linked (eps p : ℚ) (c : List ℚ) : Bool :=
  c.any (fun q => decide (|p - q| ≤ eps))

/-- Incremental connected components of the core-point graph (edges join
core points within `eps`): inserting `p` merges every component linked
to it and keeps the rest. -/
def addToComponents (eps : ℚ) (comps : List (List ℚ)) (p : ℚ) : List (List ℚ) :=
  (p :: (comps.filter (linked eps p)).flatten) ::
    comps.filter (fun c => !(linked eps p c))

/-- The number of distinct non-noise labels assigned by
`DBSCAN(eps, min_samples).fit`: every cluster contains a core point, two
core points within `eps` share a label, and border points only reuse
existing labels, so the count is the number of connected components of
the core-point graph.  This models
`len(set(clustering.labels_)) - (1 if -1 in clustering.labels_ else 0)`. -/
def cluster_labels_count (distances : List ℚ) (eps : ℚ) (min_samples : ℕ) : ℕ :=
  ((distances.filter (isCore distances eps min_samples)).foldl
    (addToComponents eps) []).length

/-- `group_devices_by_dbscan(distances, eps=0.10, min_samples=1)`:
`0` on empty input, otherwise `max(num_people, 1)`. -/
def group_devices_by_dbscan (distances : List ℚ) (eps : ℚ) (min_samples : ℕ) : ℕ :=
  if distances.isEmpty then 0
  else max (cluster_labels_count distances eps min_samples) 1

end Naman

namespace BluetoothDetection

/-- `calculate_distance(rssi, rssi_at_1m=-50, path_loss_exponent=3)` of
`bluetoothDetection.py`.  Note the denominator `15 * path_loss_exponent`
in the source, although its own comment names the log-distance path-loss
model (denominator `10 * n`) and its docstring claims a default exponent
of 2 while the code defaults to 3. -/
noncomputable def calculate_distance (rssi rssi_at_1m path_loss_exponent : ℚ) : Option ℝ :=
  some ((10 : ℝ) ^ ((((rssi_at_1m - rssi) / (15 * path_loss_exponent) : ℚ) : ℝ)))

end BluetoothDetection

namespace FrequencyOfDevices

/-- The per-device body of one scan in `multiple_scans` of
`frequencyOfDevices.py`: a reading enters `device_rssi_history` only
when `device.rssi >= -80` ("WE ARE IGNORING WEAK SIGNALS"). -/
def scanStep (hist : String → List ℚ) (devices : List (String × ℚ)) :
    String → List ℚ :=
  devices.foldl
    (fun h dev =>
      if (-80 : ℚ) ≤ dev.2 then
        fun a => if a = dev.1 then h dev.1 ++ [dev.2] else h a
      else h)
    hist

end FrequencyOfDevices

namespace PossibleAlgorithm

/-- `DISTANCE_LIMIT = 20` in `possible_algorithm.py`. -/
def DISTANCE_LIMIT : ℚ := 20

/-- `MIN_NON_ZERO_RSSI = 5` in `possible_algorithm.py`. -/
def MIN_NON_ZERO_RSSI : ℕ := 5

/-- `sum(values) / len(values)`, as computed inline by
`update_rssi_history` and `estimate_users_from_history`. -/
def avg (values : List ℚ) : ℚ := values.sum / values.length

/-- `round(x, 2)` on a real value. -/
noncomputable def round2 (x : ℝ) : ℝ := ((round (100 * x) : ℤ) : ℝ) / 100

/-- `calculate_distance(rssi, rssi_at_1m=-50, path_loss_exponent=2)` of
`possible_algorithm.py` at its default arguments:
`round(10 ** ((-50 - rssi) / 20), 2)`.  The `try/except` never fires for
numeric input, so the result is always `some`. -/
noncomputable def calculate_distance (rssi : ℚ) : Option ℝ :=
  some (round2 ((10 : ℝ) ^ ((((-50 - rssi) / (10 * 2) : ℚ) : ℝ))))

/-- The `rssi_history` dict of `possible_algorithm.py`. -/
structure Store where
  hist : String → List ℚ
  tracked : List String

def emptyStore : Store := ⟨fun _ => [], []⟩

/-- The list-level body of `update_rssi_history`: append, then pop the
first element when the length exceeds 10. -/
def recordStep (l : List ℚ) (rssi : ℚ) : List ℚ :=
  let l1 := l ++ [rssi]
  if 10 < l1.length then l1.tail else l1

/-- `update_rssi_history(address, rssi)` of `possible_algorithm.py`:
creates the entry on first sighting, appends `rssi`, pops the oldest
sample when the length exceeds 10, and returns the average of the
retained samples. -/
def update_rssi_history (st : Store) (address : String) (rssi : ℚ) : Store × ℚ :=
  let l := recordStep (st.hist address) rssi
  (⟨fun a => if a = address then l else st.hist a,
    if address ∈ st.tracked then st.tracked else st.tracked ++ [address]⟩,
   avg l)

/-- `mark_missing_devices(active_devices)`: for every tracked address not
in `active_devices`, append the sentinel `0` - with NO length bound. -/
def mark_missing_devices (st : Store) (active_devices : List String) : Store :=
  ⟨fun a =>
    if a ∈ st.tracked ∧ a ∉ active_devices then st.hist a ++ [0] else st.hist a,
   st.tracked⟩

/-- A History Store operation: one `update_rssi_history` call or one
`mark_missing_devices` call. -/
inductive HistOp where
  | record (address : String) (rssi : ℚ)
  | markAbsent (active : List String)

def applyOp (st : Store) : HistOp → Store
  | .record a r => (update_rssi_history st a r).1
  | .markAbsent act => mark_missing_devices st act

def applyOps (st : Store) (ops : List HistOp) : Store := ops.foldl applyOp st

/-- Applying only `update_rssi_history` calls, given as address/rssi
pairs. -/
def applyRecords (st : Store) (rs : List (String × ℚ)) : Store :=
  rs.foldl (fun s p => (update_rssi_history s p.1 p.2).1) st

/-- The samples recorded for `address` by a list of record calls, in
order. -/
def recordedFor (address : String) (rs : List (String × ℚ)) : List ℚ :=
  rs.filterMap (fun p => if p.1 = address then some p.2 else none)

/-- The at most 10 most recent elements of a list. -/
def lastTen (l : List ℚ) : List ℚ := l.drop (l.length - 10)

/-- The per-address body of the `for address, rssi_values in
rssi_history.items()` loop of `estimate_users_from_history`: the address
contributes a distance when its history has at least
`MIN_NON_ZERO_RSSI` non-zero samples and the distance computed from its
average RSSI is below `DISTANCE_LIMIT`. -/
noncomputable def estimate_entry (st : Store) (address : String) : Option (String × ℝ) :=
  let rssi_values := st.hist address
  if MIN_NON_ZERO_RSSI ≤ (rssi_values.filter (fun r => decide (r ≠ 0))).length then
    match calculate_distance (avg rssi_values) with
    | some distance =>
        if distance < (DISTANCE_LIMIT : ℝ) then some (address, distance) else none
    | none => none
  else none

/-- `estimate_users_from_history` of `possible_algorithm.py`, up to the
construction of the `distances` list, keeping the contributing address
next to each distance. -/
noncomputable def estimate_users_distances (st : Store) : List (String × ℝ) :=
  st.tracked.filterMap (estimate_entry st)

theorem update_hist_eval (st : Store) (a b : String) (r : ℚ) :
    ((update_rssi_history st a r).1).hist b =
      if b = a then recordStep (st.hist a) r else st.hist b := by
  simp [update_rssi_history]

theorem update_tracked_eval (st : Store) (a : String) (r : ℚ) :
    ((update_rssi_history st a r).1).tracked =
      if a ∈ st.tracked then st.tracked else st.tracked ++ [a] := by
  simp [update_rssi_history]

theorem recordStep_lastTen (s : List ℚ) (r : ℚ) :
    recordStep (lastTen s) r = lastTen (s ++ [r]) := by
  by_cases h : 10 ≤ s.length
  · have hdd : lastTen s ++ [r] = (s ++ [r]).drop (s.length - 10) := by
      unfold lastTen
      exact (List.drop_append_of_le_length (by omega)).symm
    have hlen : ((s ++ [r]).drop (s.length - 10)).length = 11 := by
      rw [List.length_drop]; simp; omega
    unfold recordStep
    rw [hdd, if_pos (by rw [hlen]; omega), List.tail_drop]
    unfold lastTen
    congr 1
    simp
    omega
  · have h0 : s.length - 10 = 0 := by omega
    have hs : lastTen s = s := by simp [lastTen, h0]
    unfold recordStep
    rw [hs, if_neg (by simp; omega)]
    unfold lastTen
    have h1 : (s ++ [r]).length - 10 = 0 := by simp; omega
    rw [h1, List.drop_zero]

theorem foldl_recordStep_lastTen :
    ∀ (rs : List ℚ) (s : List ℚ),
      rs.foldl recordStep (lastTen s) = lastTen (s ++ rs) := by
  intro rs
  induction rs with
  | nil => intro s; simp
  | cons r rest ih =>
      intro s
      simp only [List.foldl_cons]
      rw [recordStep_lastTen]
      simpa [List.append_assoc] using ih (s ++ [r])

theorem foldl_recordStep_nil (rs : List ℚ) :
    rs.foldl recordStep [] = lastTen rs := by
  have h : lastTen [] = ([] : List ℚ) := by simp [lastTen]
  have := foldl_recordStep_lastTen rs []
  rw [h] at this
  simpa using this

theorem applyRecords_hist :
    ∀ (rs : List (String × ℚ)) (st : Store) (address : String),
      (applyRecords st rs).hist address =
        (recordedFor address rs).foldl recordStep (st.hist address) := by
  intro rs
  induction rs with
  | nil => intro st address; simp [applyRecords, recordedFor]
  | cons p rest ih =>
      intro st address
      obtain ⟨a, r⟩ := p
      have hstep : applyRecords st ((a, r) :: rest) =
          applyRecords (update_rssi_history st a r).1 rest := by
        simp [applyRecords]
      rw [hstep, ih]
      by_cases h : a = address
      · subst h
        rw [update_hist_eval]
        simp [recordedFor]
      · rw [update_hist_eval]
        have h' : ¬(address = a) := fun hc => h hc.symm
        simp [recordedFor, h, h']

theorem applyRecords_hist_lastTen (rs : List (String × ℚ)) (address : String) :
    (applyRecords emptyStore rs).hist address = lastTen (recordedFor address rs) := by
  rw [applyRecords_hist]
  exact foldl_recordStep_nil (recordedFor address rs)

theorem lastTen_length_le (l : List ℚ) : (lastTen l).length ≤ 10 := by
  simp only [lastTen, List.length_drop]
  omega

theorem mark_missing_hist_absent (st : Store) (active : List String) (address : String)
    (h1 : address ∈ st.tracked) (h2 : address ∉ active) :
    (mark_missing_devices st active).hist address = st.hist address ++ [0] := by
  simp [mark_missing_devices, h1, h2]

theorem update_tracked_mem (st : Store) (a : String) (r : ℚ) :
    a ∈ ((update_rssi_history st a r).1).tracked := by
  rw [update_tracked_eval]
  by_cases h : a ∈ st.tracked <;> simp [h]

theorem update_tracked_mono (st : Store) (a b : String) (r : ℚ) (h : b ∈ st.tracked) :
    b ∈ ((update_rssi_history st a r).1).tracked := by
  rw [update_tracked_eval]
  by_cases h2 : a ∈ st.tracked <;> simp [h2, h]

theorem applyRecords_tracked_mono :
    ∀ (rs : List (String × ℚ)) (st : Store) (b : String),
      b ∈ st.tracked → b ∈ (applyRecords st rs).tracked := by
  intro rs
  induction rs with
  | nil => intro st b h; simpa [applyRecords] using h
  | cons p rest ih =>
      intro st b h
      have hstep : applyRecords st (p :: rest) =
          applyRecords (update_rssi_history st p.1 p.2).1 rest := by
        simp [applyRecords]
      rw [hstep]
      exact ih _ b (update_tracked_mono st p.1 b p.2 h)

theorem applyOps_append (st : Store) (l1 l2 : List HistOp) :
    applyOps st (l1 ++ l2) = applyOps (applyOps st l1) l2 := by
  simp [applyOps, List.foldl_append]

theorem applyOps_records (st : Store) (address : String) (rs : List ℚ) :
    applyOps st (rs.map (HistOp.record address)) =
      applyRecords st (rs.map (fun r => (address, r))) := by
  simp [applyOps, applyRecords, List.foldl_map, applyOp]

theorem recordedFor_self (address : String) (rs : List ℚ) :
    recordedFor address (rs.map (fun r => (address, r))) = rs := by
  induction rs with
  | nil => simp [recordedFor]
  | cons r rest ih => simpa [recordedFor] using ih

theorem markAbsent_iter_hist :
    ∀ (k : ℕ) (st : Store) (address : String), address ∈ st.tracked →
      (applyOps st (List.replicate k (HistOp.markAbsent []))).hist address =
        st.hist address ++ List.replicate k 0 := by
  intro k
  induction k with
  | zero => intro st address _; simp [applyOps]
  | succ n ih =>
      intro st address h
      have hstep : applyOps st (List.replicate (n + 1) (HistOp.markAbsent [])) =
          applyOps (mark_missing_devices st []) (List.replicate n (HistOp.markAbsent [])) := by
        simp [List.replicate_succ, applyOps, applyOp]
      have htr : address ∈ (mark_missing_devices st []).tracked := h
      rw [hstep, ih _ address htr,
        mark_missing_hist_absent st [] address h (by simp)]
      simp [List.replicate_succ]

/-- A full history of 10 sightings of address "A", followed by 10 scan
cycles in which "A" is absent. -/
def c1pipeline (rs : List ℚ) : Store :=
  applyOps emptyStore
    ((rs.map (HistOp.record "A")) ++ List.replicate 10 (HistOp.markAbsent []))

/-- 10 sightings of address "A" at RSSI -50, then 10 scan cycles in
which "A" is absent. -/
def c1store : Store := c1pipeline (List.replicate 10 (-50))

theorem c1store_hist :
    c1store.hist "A" = List.replicate 10 (-50) ++ List.replicate 10 0 := by
  decide

theorem c1store_tracked : c1store.tracked = ["A"] := by decide

theorem round2_lt_twenty {x : ℝ} (h1 : x < 1) : round2 x < 20 := by
  unfold round2
  have hr := abs_sub_round (100 * x)
  have h2 : ((round (100 * x) : ℤ) : ℝ) ≤ 100 * x + 1 / 2 := by
    have := (abs_le.mp hr).1
    linarith
  linarith

theorem c1_avg : avg (c1store.hist "A") = -25 := by
  rw [c1store_hist]
  simp [avg, List.sum_replicate]
  norm_num

theorem c1_entry_eval :
    estimate_entry c1store "A" =
      some ("A", round2 ((10 : ℝ) ^ ((((-50 - (-25 : ℚ)) / (10 * 2) : ℚ) : ℝ)))) := by
  have hcount : MIN_NON_ZERO_RSSI ≤
      ((c1store.hist "A").filter (fun r => decide (r ≠ 0))).length := by
    rw [c1store_hist]; decide
  have h20 : round2 ((10 : ℝ) ^ ((((-50 - (-25 : ℚ)) / (10 * 2) : ℚ) : ℝ))) <
      (DISTANCE_LIMIT : ℝ) := by
    have hq : ((-50 - (-25 : ℚ)) / (10 * 2) : ℚ) = -5/4 := by norm_num
    have hx1 : (10 : ℝ) ^ ((((-50 - (-25 : ℚ)) / (10 * 2) : ℚ) : ℝ)) < 1 := by
      rw [hq]
      apply Real.rpow_lt_one_of_one_lt_of_neg (by norm_num)
      norm_num
    have h := round2_lt_twenty hx1
    have hdl : (DISTANCE_LIMIT : ℝ) = 20 := by norm_num [DISTANCE_LIMIT]
    rw [hdl]
    exact h
  simp only [estimate_entry]
  rw [if_pos hcount, c1_avg]
  simp only [calculate_distance]
  rw [if_pos h20]

theorem c1_est_eval :
    estimate_users_distances c1store =
      [("A", round2 ((10 : ℝ) ^ ((((-50 - (-25 : ℚ)) / (10 * 2) : ℚ) : ℝ))))] := by
  unfold estimate_users_distances
  rw [c1store_tracked]
  simp [c1_entry_eval]

end PossibleAlgorithm

namespace PossibleAlgorithm

/-!
Dynamic model of `count_devices` in `possible_algorithm.py` for the
malformed-reading analysis: a reading is `some q` (numeric) or `none`
(absent / non-numeric).  `update_rssi_history` appends the raw reading
BEFORE any validity check; Python's `sum` then raises `TypeError` on a
`None` entry, which propagates to the `try/except` wrapping the whole
cycle.
-/

/-- History entries as stored: whatever `append` received. -/
def recordStepDyn (l : List (Option ℚ)) (rssi : Option ℚ) : List (Option ℚ) :=
  if 10 < (l ++ [rssi]).length then (l ++ [rssi]).tail else l ++ [rssi]

/-- `sum(values) / len(values)` on dynamic entries: `none` when any entry
is non-numeric (Python raises `TypeError`), else the average. -/
def avgDyn (l : List (Option ℚ)) : Option ℚ :=
  if l.all Option.isSome then some ((l.filterMap id).sum / l.length) else none

structure DynStore where
  hist : String → List (Option ℚ)
  tracked : List String

def emptyDynStore : DynStore := ⟨fun _ => [], []⟩

/-- `update_rssi_history` on dynamic readings: the append always
happens; the returned average is `none` exactly when the final
`sum(...)` raises. -/
def update_rssi_history_dyn (st : DynStore) (address : String) (rssi : Option ℚ) :
    DynStore × Option ℚ :=
  let l := recordStepDyn (st.hist address) rssi
  (⟨fun a => if a = address then l else st.hist a,
    if address ∈ st.tracked then st.tracked else st.tracked ++ [address]⟩,
   avgDyn l)

/-- `calculate_distance` on a dynamic reading: arithmetic on a
non-numeric value raises inside the `try`, which returns `None`; numeric
input never raises. -/
noncomputable def calculate_distance_dyn (rssi : Option ℚ) : Option ℝ :=
  match rssi with
  | none => none
  | some r => calculate_distance r

/-- `mark_missing_devices` on the dynamic store. -/
def mark_missing_devices_dyn (st : DynStore) (active_devices : List String) : DynStore :=
  ⟨fun a =>
    if a ∈ st.tracked ∧ a ∉ active_devices then st.hist a ++ [some 0] else st.hist a,
   st.tracked⟩

/-- The device loop of `count_devices`: third component `false` means an
exception escaped the loop (caught by the cycle-level `except`), leaving
the store as already mutated and abandoning the rest of the cycle. -/
noncomputable def count_devices_loop_dyn (st : DynStore) (acc : List ℝ) :
    List (String × Option ℚ) → DynStore × List ℝ × Bool
  | [] => (st, acc, true)
  | (address, rssi) :: rest =>
      match (update_rssi_history_dyn st address rssi).2 with
      | none => ((update_rssi_history_dyn st address rssi).1, acc, false)
      | some a =>
          match calculate_distance_dyn (some a) with
          | some d =>
              if d < (DISTANCE_LIMIT : ℝ) then
                count_devices_loop_dyn (update_rssi_history_dyn st address rssi).1
                  (acc ++ [d]) rest
              else
                count_devices_loop_dyn (update_rssi_history_dyn st address rssi).1 acc rest
          | none =>
              count_devices_loop_dyn (update_rssi_history_dyn st address rssi).1 acc rest

/-- One `count_devices` cycle of `possible_algorithm.py` on dynamic
readings: run the device loop; only when no exception escaped does
`mark_missing_devices` run. -/
noncomputable def count_devices_dyn (st : DynStore) (devices : List (String × Option ℚ)) :
    DynStore × List ℝ × Bool :=
  let r := count_devices_loop_dyn st [] devices
  if r.2.2 then
    (mark_missing_devices_dyn r.1 (devices.map Prod.fst), r.2.1, true)
  else r

theorem mem_recordStepDyn_self (l : List (Option ℚ)) (rssi : Option ℚ) :
    rssi ∈ recordStepDyn l rssi := by
  unfold recordStepDyn
  by_cases h : 10 < (l ++ [rssi]).length
  · rw [if_pos h]
    cases l with
    | nil => simp at h
    | cons x xs => simp
  · rw [if_neg h]
    simp

theorem avgDyn_of_none_mem (l : List (Option ℚ)) (h : none ∈ l) :
    avgDyn l = none := by
  unfold avgDyn
  rw [if_neg]
  simp only [List.all_eq_true]
  intro hall
  have := hall none h
  simp at this

/-- A malformed first reading: the append happens, then the average
raises, the loop aborts, and `mark_missing_devices` never runs. -/
theorem count_devices_dyn_malformed (st : DynStore) (address : String)
    (rest : List (String × Option ℚ)) :
    count_devices_dyn st ((address, none) :: rest) =
      ((update_rssi_history_dyn st address none).1, [], false) := by
  have hm : (update_rssi_history_dyn st address none).2 = none := by
    simp only [update_rssi_history_dyn]
    exact avgDyn_of_none_mem _ (mem_recordStepDyn_self _ _)
  unfold count_devices_dyn
  rw [count_devices_loop_dyn.eq_def]
  simp [hm]

end PossibleAlgorithm

namespace Naman

theorem naman_update_hist_eval (st : Store) (a b : String) (r : ℚ) :
    ((update_rssi_history st a r).1).hist b =
      if b = a then st.hist a ++ [r] else st.hist b := by
  simp [update_rssi_history]

theorem naman_single_loop_store (st : Store) (acc : List ℝ) (a : String) (r : ℚ) :
    (count_devices_loop st acc [(a, r)]).1 = (update_rssi_history st a r).1 := by
  rw [count_devices_loop.eq_def]
  simp only [calculate_distance]
  split
  · rw [count_devices_loop.eq_def]
  · rw [count_devices_loop.eq_def]

theorem naman_applyRecords_hist :
    ∀ (rs : List (String × ℚ)) (st : Store) (address : String),
      (applyRecords st rs).hist address =
        st.hist address ++ PossibleAlgorithm.recordedFor address rs := by
  intro rs
  induction rs with
  | nil => intro st address; simp [applyRecords, PossibleAlgorithm.recordedFor]
  | cons p rest ih =>
      intro st address
      obtain ⟨a, r⟩ := p
      have hstep : applyRecords st ((a, r) :: rest) =
          applyRecords (update_rssi_history st a r).1 rest := by
        simp [applyRecords]
      rw [hstep, ih]
      by_cases h : a = address
      · subst h
        rw [naman_update_hist_eval]
        simp [PossibleAlgorithm.recordedFor]
      · rw [naman_update_hist_eval]
        have h' : ¬(address = a) := fun hc => h hc.symm
        simp [PossibleAlgorithm.recordedFor, h, h']

end Naman

namespace PossibleAlgorithm

theorem update_returns_avg (st : Store) (a : String) (r : ℚ) :
    (update_rssi_history st a r).2 = avg (((update_rssi_history st a r).1).hist a) := by
  simp [update_rssi_history]

theorem records15_hist (rs : List ℚ) (h : rs.length = 15) :
    (applyRecords emptyStore (rs.map (fun r => ("A", r)))).hist "A" = rs.drop 5 := by
  rw [applyRecords_hist_lastTen, recordedFor_self]
  simp [lastTen, h]

/-- A small concrete store: one tracked address "A" with one sample. -/
def c2small : Store := ⟨fun a => if a = "A" then [-50] else [], ["A"]⟩

/-- 10 sightings of address "A" at RSSI -50, then one cycle in which "A"
is absent: the history grows to 11 samples. -/
def c2store : Store :=
  applyOps emptyStore
    (((List.replicate 10 (-50 : ℚ)).map (HistOp.record "A")) ++ [HistOp.markAbsent []])

end PossibleAlgorithm

namespace FrequencyOfDevices

theorem scanStep_eval :
    ∀ (devices : List (String × ℚ)) (hist : String → List ℚ) (address : String),
      scanStep hist devices address =
        hist address ++ (devices.filterMap (fun dev =>
          if dev.1 = address ∧ (-80 : ℚ) ≤ dev.2 then some dev.2 else none)) := by
  intro devices
  induction devices with
  | nil => intro hist address; simp [scanStep]
  | cons dev rest ih =>
      intro hist address
      obtain ⟨b, r⟩ := dev
      by_cases hr : (-80 : ℚ) ≤ r
      · have hstep : scanStep hist ((b, r) :: rest) =
            scanStep (fun a => if a = b then hist b ++ [r] else hist a) rest := by
          simp [scanStep, hr]
        rw [hstep, ih]
        by_cases hb : b = address
        · subst hb
          simp [hr]
        · have hb' : ¬(address = b) := fun hc => hb hc.symm
          simp [hb, hb', hr]
      · have hstep : scanStep hist ((b, r) :: rest) = scanStep hist rest := by
          simp [scanStep, hr]
        rw [hstep, ih]
        simp [hr]

end FrequencyOfDevices

namespace PossibleAlgorithm

theorem c1pipeline_facts (rs : List ℚ) (h : rs.length = 10) :
    (c1pipeline rs).hist "A" = rs ++ List.replicate 10 0 := by
  have hne : rs ≠ [] := by intro hc; rw [hc] at h; simp at h
  obtain ⟨r, rest, rfl⟩ := List.exists_cons_of_ne_nil hne
  unfold c1pipeline
  rw [applyOps_append, applyOps_records]
  have htr : "A" ∈ (applyRecords emptyStore
      ((r :: rest).map (fun x => ("A", x)))).tracked := by
    simp only [List.map_cons]
    have hstep : applyRecords emptyStore (("A", r) :: rest.map (fun x => ("A", x))) =
        applyRecords (update_rssi_history emptyStore "A" r).1
          (rest.map (fun x => ("A", x))) := by
      simp [applyRecords]
    rw [hstep]
    exact applyRecords_tracked_mono _ _ _ (update_tracked_mem _ "A" r)
  rw [markAbsent_iter_hist 10 _ "A" htr, applyRecords_hist_lastTen, recordedFor_self]
  have hl : lastTen (r :: rest) = r :: rest := by
    unfold lastTen
    rw [h]
    simp
  rw [hl]

end PossibleAlgorithm

/-!
Claim theorems.
-/

/-- Claim C1 (counterexample): after a full history of 10 samples at
-50 dBm and 10 consecutive absent cycles, the smoothed RSSI of "A" is
NOT 0, and "A" is NOT excluded from the distance set passed to the
grouper - `estimate_users_from_history` still produces a distance
for it. -/
theorem C1_counterexample :
    PossibleAlgorithm.avg (PossibleAlgorithm.c1store.hist "A") ≠ 0 ∧
    (PossibleAlgorithm.estimate_users_distances PossibleAlgorithm.c1store).map Prod.fst
      = ["A"] := by
  constructor
  · rw [PossibleAlgorithm.c1_avg]
    norm_num
  · rw [PossibleAlgorithm.c1_est_eval]
    rfl

/-- Claim C1 (amended): for an address with a full history of 10 samples
then absent for 10 consecutive cycles, `mark_missing_devices` appends
ten 0 sentinels WITHOUT evicting, so the history is the original 10
samples followed by ten 0s (length 20), the smoothed RSSI equals
originalSum/20 rather than 0, and `calculate_distance` on it returns a
numeric estimate, never `NoEstimate`; the address is therefore excluded
from the distance set only if that estimate reaches `DISTANCE_LIMIT`. -/
theorem C1_amended_attrition :
    ∀ rs : List ℚ, rs.length = 10 →
      (PossibleAlgorithm.c1pipeline rs).hist "A" = rs ++ List.replicate 10 0 ∧
      PossibleAlgorithm.avg ((PossibleAlgorithm.c1pipeline rs).hist "A") = rs.sum / 20 ∧
      PossibleAlgorithm.calculate_distance
        (PossibleAlgorithm.avg ((PossibleAlgorithm.c1pipeline rs).hist "A")) ≠ none := by
  intro rs h
  have hh := PossibleAlgorithm.c1pipeline_facts rs h
  refine ⟨hh, ?_, ?_⟩
  · rw [hh]
    simp [PossibleAlgorithm.avg, List.sum_replicate, List.length_append, h]
  · simp [PossibleAlgorithm.calculate_distance]

/-- Claim C1 (witness): the amended claim at the concrete full history
of ten -50 dBm samples. -/
theorem C1_witness :
    (List.replicate 10 (-50 : ℚ)).length = 10 ∧
    ((PossibleAlgorithm.c1pipeline (List.replicate 10 (-50))).hist "A" =
        List.replicate 10 (-50) ++ List.replicate 10 0 ∧
      PossibleAlgorithm.avg
          ((PossibleAlgorithm.c1pipeline (List.replicate 10 (-50))).hist "A") =
        (List.replicate 10 (-50 : ℚ)).sum / 20 ∧
      PossibleAlgorithm.calculate_distance
          (PossibleAlgorithm.avg
            ((PossibleAlgorithm.c1pipeline (List.replicate 10 (-50))).hist "A")) ≠
        none) :=
  ⟨by decide, C1_amended_attrition (List.replicate 10 (-50)) (by decide)⟩

/-- Claim C2 (counterexample): ten `update_rssi_history` calls for "A"
followed by a single `mark_missing_devices` cycle leave a history of
length 11 - the `len ≤ N = 10` invariant fails. -/
theorem C2_counterexample : (PossibleAlgorithm.c2store.hist "A").length = 11 := by
  decide

/-- Claim C2 (amended): under `update_rssi_history` alone every history
equals the at most 10 most recent samples in arrival order (oldest
evicted first), so its length never exceeds 10; `mark_missing_devices`,
however, appends its 0 sentinel without evicting, so interleavings
containing an absent cycle can grow a history beyond 10. -/
theorem C2_amended_invariant :
    (∀ (rs : List (String × ℚ)) (address : String),
      (PossibleAlgorithm.applyRecords PossibleAlgorithm.emptyStore rs).hist address =
        PossibleAlgorithm.lastTen (PossibleAlgorithm.recordedFor address rs) ∧
      ((PossibleAlgorithm.applyRecords PossibleAlgorithm.emptyStore rs).hist
        address).length ≤ 10) ∧
    (∀ (st : PossibleAlgorithm.Store) (active : List String) (address : String),
      address ∈ st.tracked → address ∉ active →
      (PossibleAlgorithm.mark_missing_devices st active).hist address =
        st.hist address ++ [0]) := by
  constructor
  · intro rs address
    have h := PossibleAlgorithm.applyRecords_hist_lastTen rs address
    exact ⟨h, by rw [h]; exact PossibleAlgorithm.lastTen_length_le _⟩
  · exact PossibleAlgorithm.mark_missing_hist_absent

/-- Claim C2 (witness): the amended claim at a concrete store and a
concrete record sequence. -/
theorem C2_witness :
    (PossibleAlgorithm.applyRecords PossibleAlgorithm.emptyStore [("A", 1)]).hist "A" =
      PossibleAlgorithm.lastTen (PossibleAlgorithm.recordedFor "A" [("A", 1)]) ∧
    ("A" ∈ PossibleAlgorithm.c2small.tracked ∧
      (PossibleAlgorithm.mark_missing_devices PossibleAlgorithm.c2small ["B"]).hist "A" =
        PossibleAlgorithm.c2small.hist "A" ++ [0]) :=
  ⟨(C2_amended_invariant.1 [("A", 1)] "A").1,
    by decide,
    C2_amended_invariant.2 PossibleAlgorithm.c2small ["B"] "A" (by decide) (by decide)⟩

/-- Fifteen distinct RSSI samples, recorded in order. -/
def c3values : List ℚ :=
  [-41, -42, -43, -44, -45, -46, -47, -48, -49, -50, -51, -52, -53, -54, -55]

/-- The `Naman/dbscanDetection.py` history after 15 `update_rssi_history`
calls for one address. -/
def c3naman : Naman.Store :=
  Naman.applyRecords Naman.emptyStore (c3values.map (fun r => ("A", r)))

/-- Claim C3 (counterexample): the `update_rssi_history` of
`Naman/dbscanDetection.py` (cited by the claim) never evicts: after 15
calls for one address the history holds all 15 samples, not the 10 most
recent. -/
theorem C3_counterexample :
    (c3naman.hist "A").length = 15 ∧ (c3naman.hist "A").length ≠ 10 := by
  constructor <;> decide

/-- Claim C3 (amended): `update_rssi_history` of `possible_algorithm.py`
appends, evicts the oldest sample when the length exceeds 10, and
returns the arithmetic mean of the retained samples; after 15 calls for
one address its history holds exactly the 10 most recent samples in
arrival order.  The `Naman/dbscanDetection.py` variant never evicts: it
retains every recorded sample in arrival order. -/
theorem C3_amended_record :
    (∀ (st : PossibleAlgorithm.Store) (a : String) (r : ℚ),
      (PossibleAlgorithm.update_rssi_history st a r).2 =
        PossibleAlgorithm.avg
          (((PossibleAlgorithm.update_rssi_history st a r).1).hist a)) ∧
    (∀ rs : List ℚ, rs.length = 15 →
      (PossibleAlgorithm.applyRecords PossibleAlgorithm.emptyStore
          (rs.map (fun r => ("A", r)))).hist "A" = rs.drop 5 ∧
      ((PossibleAlgorithm.applyRecords PossibleAlgorithm.emptyStore
          (rs.map (fun r => ("A", r)))).hist "A").length = 10) ∧
    (∀ (rs : List (String × ℚ)) (st : Naman.Store) (address : String),
      (Naman.applyRecords st rs).hist address =
        st.hist address ++ PossibleAlgorithm.recordedFor address rs) := by
  refine ⟨PossibleAlgorithm.update_returns_avg, ?_, Naman.naman_applyRecords_hist⟩
  intro rs h
  have hd := PossibleAlgorithm.records15_hist rs h
  refine ⟨hd, ?_⟩
  rw [hd, List.length_drop, h]

/-- Claim C3 (witness): the amended claim at 15 concrete samples. -/
theorem C3_witness :
    c3values.length = 15 ∧
    ((PossibleAlgorithm.applyRecords PossibleAlgorithm.emptyStore
        (c3values.map (fun r => ("A", r)))).hist "A" = c3values.drop 5 ∧
      ((PossibleAlgorithm.applyRecords PossibleAlgorithm.emptyStore
        (c3values.map (fun r => ("A", r)))).hist "A").length = 10) :=
  ⟨by decide, C3_amended_record.2.1 c3values (by decide)⟩

/-- Claim C4: `bluetoothDetection.py` computes
`10 ** ((rssi_at_1m - rssi) / (15 * path_loss_exponent))` - at
`rssi = -80` with its defaults `(-50, 3)` this is `10 ^ (2/3) ≈ 4.64 m`,
not the `10 ^ ((−50−rssi)/(10·n)) = 10 m` of the claimed log-distance
formula (which the function's own docstring names); the
`Naman/dbscanDetection.py` converter does satisfy the formula, giving
exactly 1.0 at `(-50, -50, 2)`. -/
theorem C4_code_eval :
    BluetoothDetection.calculate_distance (-80) (-50) 3 =
      some ((10 : ℝ) ^ ((2/3 : ℝ))) ∧
    (10 : ℝ) ^ ((2/3 : ℝ)) ≠ (10 : ℝ) ^ ((((-50 : ℝ) - (-80)) / (10 * 3))) ∧
    Naman.calculate_distance (-50) (-50) 2 = some 1 := by
  refine ⟨?_, ?_, ?_⟩
  · simp only [BluetoothDetection.calculate_distance]
    have hq : (((-50 : ℚ) - (-80)) / (15 * 3) : ℚ) = 2/3 := by norm_num
    rw [hq]
    norm_num
  · have h1 : (((-50 : ℝ) - (-80)) / (10 * 3)) = 1 := by norm_num
    rw [h1]
    exact ne_of_lt ((Real.rpow_lt_rpow_left_iff (by norm_num)).2 (by norm_num))
  · simp only [Naman.calculate_distance]
    have hq : (((-50 : ℚ) - (-50)) / (10 * 2) : ℚ) = 0 := by norm_num
    rw [hq]
    norm_num

/-- Claim C5 (counterexample): `General.py`'s `_group_by_distance`
(cited by the claim) does NOT follow the chained rule: it compares each
candidate to the group's FIRST element (plus a 0.2 buffer).  On
`[0, 0.2, 0.4, 0.6]` with threshold 0.2 it yields 2 groups, while the
claimed chained rule (difference from the immediately preceding absorbed
element ≤ τ) yields a single group. -/
theorem C5_counterexample :
    General.group_by_distance (1/5) [0, 1/5, 2/5, 3/5] = 2 ∧
    (Grouping.chainGroups (1/5)
      (([0, 1/5, 2/5, 3/5] : List ℚ).insertionSort (· ≤ ·))).length = 1 := by
  constructor
  · norm_num [General.group_by_distance, General.groupLoop, List.insertionSort,
      List.orderedInsert, List.dropWhile]
  · have hs : (([0, 1/5, 2/5, 3/5] : List ℚ).insertionSort (· ≤ ·)) =
        [0, 1/5, 2/5, 3/5] := by
      norm_num [List.insertionSort, List.orderedInsert]
    have hc : Grouping.chainFrom (1/5) 0 [1/5, 2/5, 3/5] = ([1/5, 2/5, 3/5], []) := by
      norm_num [Grouping.chainFrom, abs_le]
    rw [hs, Grouping.chainGroups_cons, hc]
    simp [Grouping.chainGroups_nil]

/-- Claim C5 (amended): `group_devices_by_proximity` (the chained
grouper of `possible_algorithm.py` / `Naman/dbscanDetection.py` /
`Tmay_bluetooth_scan.py`) sorts ascending and absorbs a distance into
the current group exactly when its difference from the immediately
preceding absorbed element is ≤ τ; on `[1.0, 1.1, 1.3]` with τ = 0.2 it
returns exactly 1 group and on empty input 0 groups.  `General.py`'s
`_group_by_distance` instead compares to the current group's first
element with bound τ + 0.2; it agrees on those two inputs but not in
general. -/
theorem C5_amended_chained :
    (∀ (tol : ℚ) (distances : List ℚ),
      Grouping.group_devices_by_proximity tol distances =
        Grouping.chainGroups tol (distances.insertionSort (· ≤ ·))) ∧
    (Grouping.group_devices_by_proximity (1/5) [1, 11/10, 13/10]).length = 1 ∧
    (∀ tol : ℚ, Grouping.group_devices_by_proximity tol [] = []) ∧
    General.group_by_distance (1/5) [1, 11/10, 13/10] = 1 ∧
    (∀ t : ℚ, General.group_by_distance t [] = 0) := by
  refine ⟨Grouping.group_devices_by_proximity_eq_chainGroups, ?_, ?_, ?_, ?_⟩
  · norm_num [Grouping.group_devices_by_proximity, Grouping.step, List.insertionSort,
      List.orderedInsert, abs_le, List.getLast?]
    simp
  · intro tol
    rfl
  · norm_num [General.group_by_distance, General.groupLoop, List.insertionSort,
      List.orderedInsert, List.dropWhile]
  · intro t
    rfl

/-- Claim C6 (counterexample): a malformed reading for "A" on a fresh
store leaves the History Store MUTATED - the raw non-numeric reading was
appended before any validity check. -/
theorem C6_counterexample :
    ((PossibleAlgorithm.count_devices_dyn PossibleAlgorithm.emptyDynStore
        [("A", none)]).1).hist "A" = [none] ∧
    ([none] : List (Option ℚ)) ≠ PossibleAlgorithm.emptyDynStore.hist "A" := by
  constructor
  · rw [PossibleAlgorithm.count_devices_dyn_malformed]
    simp [PossibleAlgorithm.update_rssi_history_dyn, PossibleAlgorithm.recordStepDyn,
      PossibleAlgorithm.emptyDynStore]
  · simp [PossibleAlgorithm.emptyDynStore]

/-- Claim C6 (amended): on an absent/non-numeric reading
`calculate_distance` does return `NoEstimate` (`None`) without raising;
but `count_devices` first appends the raw reading to the device's
history, so the History Store IS mutated (the malformed entry is in the
history), and the subsequent average computation raises, which makes the
cycle-level handler abandon the remainder of the whole cycle (no
distances, no `mark_missing_devices`). -/
theorem C6_amended_malformed :
    PossibleAlgorithm.calculate_distance_dyn none = none ∧
    (∀ (st : PossibleAlgorithm.DynStore) (address : String)
        (rest : List (String × Option ℚ)),
      PossibleAlgorithm.count_devices_dyn st ((address, none) :: rest) =
        ((PossibleAlgorithm.update_rssi_history_dyn st address none).1, [], false)) ∧
    (∀ (st : PossibleAlgorithm.DynStore) (address : String),
      none ∈ ((PossibleAlgorithm.update_rssi_history_dyn st address none).1).hist
        address) := by
  refine ⟨rfl, PossibleAlgorithm.count_devices_dyn_malformed, ?_⟩
  intro st address
  simp only [PossibleAlgorithm.update_rssi_history_dyn, if_pos rfl]
  exact PossibleAlgorithm.mem_recordStepDyn_self _ _

/-- Claim C7: the density grouper returns 0 on the empty distance list
and at least 1 on every non-empty list (`max(num_people, 1)` floors the
non-noise label count); on the spec's example `[1.0, 1.05, 1.1, 5.0]`
with `eps = 0.2`, `min_samples = 1` it finds exactly 2 clusters. -/
theorem C7_dbscan_floor :
    (∀ (eps : ℚ) (min_samples : ℕ),
      Naman.group_devices_by_dbscan [] eps min_samples = 0) ∧
    (∀ (distances : List ℚ) (eps : ℚ) (min_samples : ℕ), distances ≠ [] →
      1 ≤ Naman.group_devices_by_dbscan distances eps min_samples) ∧
    Naman.group_devices_by_dbscan [1, 21/20, 11/10, 5] (1/5) 1 = 2 := by
  refine ⟨fun eps min_samples => rfl, ?_, ?_⟩
  · intro distances eps min_samples h
    unfold Naman.group_devices_by_dbscan
    rw [if_neg (by simpa using h)]
    exact le_max_right _ 1
  · norm_num [Naman.group_devices_by_dbscan, Naman.cluster_labels_count, Naman.isCore,
      Naman.addToComponents, Naman.linked, List.filter, abs_le]

/-- Claim C7 (witness): the floor at the concrete singleton input. -/
theorem C7_witness :
    ([1] : List ℚ) ≠ [] ∧ 1 ≤ Naman.group_devices_by_dbscan [1] 1 1 :=
  ⟨by decide, C7_dbscan_floor.2.1 [1] 1 1 (by decide)⟩

/-- Claim C8 (counterexample): the Python groupers call
`distances.sort()`, which mutates the caller's list in place: after
`group_devices_by_proximity([2, 1])` the caller's list is `[1, 2]`, not
the original `[2, 1]`. -/
theorem C8_counterexample :
    (Grouping.group_devices_by_proximity_call (1/5) [2, 1]).2 = [1, 2] ∧
    ([1, 2] : List ℚ) ≠ [2, 1] := by
  constructor
  · show ([2, 1] : List ℚ).insertionSort (· ≤ ·) = [1, 2]
    decide
  · decide

/-- Claim C8 (amended): the groupers read no state outside their
arguments and are deterministic - their result depends only on the
multiset of distances (it is invariant under permutation of the input) -
but they sort the caller's list in place, so after the call the caller's
list holds the same elements in ascending order rather than in its
original order. -/
theorem C8_amended_pure :
    (∀ (tol : ℚ) (l l' : List ℚ), List.Perm l l' →
      Grouping.group_devices_by_proximity tol l =
        Grouping.group_devices_by_proximity tol l') ∧
    (∀ (t : ℚ) (l l' : List ℚ), List.Perm l l' →
      General.group_by_distance t l = General.group_by_distance t l') ∧
    (∀ (tol : ℚ) (l : List ℚ),
      List.Perm ((Grouping.group_devices_by_proximity_call tol l).2) l ∧
      List.Sorted (· ≤ ·) ((Grouping.group_devices_by_proximity_call tol l).2)) := by
  refine ⟨?_, ?_, ?_⟩
  · intro tol l l' h
    simp only [Grouping.group_devices_by_proximity,
      Grouping.insertionSort_eq_of_perm h]
  · intro t l l' h
    simp only [General.group_by_distance, Grouping.insertionSort_eq_of_perm h,
      h.length_eq]
  · intro tol l
    exact ⟨List.perm_insertionSort _ l, List.sorted_insertionSort _ l⟩

/-- Claim C8 (witness): permutation invariance at a concrete pair of
permuted lists. -/
theorem C8_witness :
    List.Perm ([2, 1] : List ℚ) [1, 2] ∧
    Grouping.group_devices_by_proximity (1/5) [2, 1] =
      Grouping.group_devices_by_proximity (1/5) [1, 2] :=
  ⟨by decide, C8_amended_pure.1 (1/5) [2, 1] [1, 2] (by decide)⟩

/-- Claim C9 (counterexample): the `count_devices` pipeline of
`Naman/dbscanDetection.py` has no minimum-RSSI filter: a weak reading of
-100 dBm (below the -80 dBm threshold of `frequencyOfDevices.py`) is
appended to the device's RSSI history. -/
theorem C9_counterexample :
    ((Naman.count_devices_loop Naman.emptyStore [] [("A", -100)]).1).hist "A" =
      [-100] ∧ ((-100 : ℚ) < -80) := by
  constructor
  · rw [Naman.naman_single_loop_store]
    simp [Naman.update_rssi_history, Naman.emptyStore]
  · norm_num

/-- Claim C9 (amended): only `frequencyOfDevices.py` drops weak
observations before any history mutation: after a scan, an address's
history is its previous history followed by exactly those of the scan's
readings for it with RSSI ≥ -80, in order; the `possible_algorithm.py`
and `Naman/dbscanDetection.py` pipelines append every reading to history
regardless of signal strength. -/
theorem C9_amended_filter :
    ∀ (devices : List (String × ℚ)) (hist : String → List ℚ) (address : String),
      FrequencyOfDevices.scanStep hist devices address =
        hist address ++ (devices.filterMap (fun dev =>
          if dev.1 = address ∧ (-80 : ℚ) ≤ dev.2 then some dev.2 else none)) :=
  FrequencyOfDevices.scanStep_eval

/-- Claim C10: in `estimate_users_from_history` an address contributes a
distance to grouping only if its stored history has at least
`MIN_NON_ZERO_RSSI = 5` non-zero samples; in particular any address with
fewer than 5 samples overall is excluded, regardless of its computed
distance. -/
theorem C10_min_nonzero_filter :
    (∀ (st : PossibleAlgorithm.Store) (address : String),
      ((st.hist address).filter (fun r => decide (r ≠ 0))).length <
          PossibleAlgorithm.MIN_NON_ZERO_RSSI →
      address ∉ (PossibleAlgorithm.estimate_users_distances st).map Prod.fst) ∧
    (∀ (st : PossibleAlgorithm.Store) (address : String),
      (st.hist address).length < PossibleAlgorithm.MIN_NON_ZERO_RSSI →
      address ∉ (PossibleAlgorithm.estimate_users_distances st).map Prod.fst) := by
  have main : ∀ (st : PossibleAlgorithm.Store) (address : String),
      ((st.hist address).filter (fun r => decide (r ≠ 0))).length <
          PossibleAlgorithm.MIN_NON_ZERO_RSSI →
      address ∉ (PossibleAlgorithm.estimate_users_distances st).map Prod.fst := by
    intro st address h hmem
    rw [List.mem_map] at hmem
    obtain ⟨pr, hpr, hfst⟩ := hmem
    rw [PossibleAlgorithm.estimate_users_distances, List.mem_filterMap] at hpr
    obtain ⟨b, _, hsome⟩ := hpr
    rw [PossibleAlgorithm.estimate_entry] at hsome
    by_cases hcond : PossibleAlgorithm.MIN_NON_ZERO_RSSI ≤
        ((st.hist b).filter (fun r => decide (r ≠ 0))).length
    · rw [if_pos hcond] at hsome
      simp only [PossibleAlgorithm.calculate_distance] at hsome
      by_cases hlt : PossibleAlgorithm.round2 ((10 : ℝ) ^
          ((((-50 - PossibleAlgorithm.avg (st.hist b)) / (10 * 2) : ℚ) : ℝ))) <
          (PossibleAlgorithm.DISTANCE_LIMIT : ℝ)
      · rw [if_pos hlt] at hsome
        have hb : b = address := by
          have := congrArg Prod.fst (Option.some.inj hsome)
          simpa [hfst] using this
        rw [hb] at hcond
        omega
      · rw [if_neg hlt] at hsome
        exact Option.noConfusion hsome
    · rw [if_neg hcond] at hsome
      exact Option.noConfusion hsome
  refine ⟨main, ?_⟩
  intro st address h
  exact main st address
    (lt_of_le_of_lt (List.length_filter_le _ _) h)

/-- A store whose only tracked address has just two samples. -/
def c10small : PossibleAlgorithm.Store :=
  ⟨fun a => if a = "A" then [-50, -50] else [], ["A"]⟩

/-- Claim C10 (witness): an address with only 2 non-zero samples is
excluded from the distance set. -/
theorem C10_witness :
    ((c10small.hist "A").filter (fun r => decide (r ≠ 0))).length <
        PossibleAlgorithm.MIN_NON_ZERO_RSSI ∧
    "A" ∉ (PossibleAlgorithm.estimate_users_distances c10small).map Prod.fst :=
  ⟨by decide, C10_min_nonzero_filter.1 c10small "A" (by decide)⟩
